import Mathlib

set_option autoImplicit false

/-!
Shallow embedding of the MkDocs lifecycle hooks in `hooks.py`:
the translation fallback resolver built by `_build_translator`, the
translation-table loaders, and the per-locale search-index partitioner
`on_post_build`.  Python dictionaries are modelled as association lists
without duplicate keys (as produced by `json.loads` and `yaml.safe_load`),
and filesystem reads and writes are modelled by explicit input states and
an explicit list of performed writes.
-/

namespace Hooks

/-- Python `str.startswith`, on character lists: does the first list start
with the second? -/
def charsStart : List Char → List Char → Bool
  | _, [] => true
  | [], _ :: _ => false
  | c :: cs, d :: ds => (c == d) && charsStart cs ds

/-- Python `s.startswith(p)` on strings. -/
def strStartsWith (s p : String) : Bool := charsStart s.data p.data

/-- Python dictionary lookup `d.get(k)` / `d[k]`: the first binding of `k`
in the association list. -/
def assocFind {α : Type} (k : String) : List (String × α) → Option α
  | [] => none
  | (k', v) :: rest => if k' = k then some v else assocFind k rest

/-- Python dictionary assignment `d[k] = v`: replace the binding of `k` in
place if present (a Python dict holds at most one), else append it. -/
def assocSet {α : Type} : List (String × α) → String → α → List (String × α)
  | [], k, v => [(k, v)]
  | (k', v') :: rest, k, v =>
    if k' = k then (k, v) :: rest else (k', v') :: assocSet rest k v

/-! ## Translator (`_build_translator` and its helpers) -/

/-- A YAML document as read from `docs/locale/*.yml`: nested maps with
string leaves (translation files hold strings at the leaves). -/
inductive Yaml where
  | str : String → Yaml
  | map : List (String × Yaml) → Yaml

mutual

/-- `_flatten(prefix, value, dest)` from `hooks.py`: flatten a nested YAML
document into dot-separated keys, writing into `dest`. -/
def _flatten (pre : String) : Yaml → List (String × String) → List (String × String)
  | .str s, dest => assocSet dest pre s
  | .map fields, dest => flattenPairs pre fields dest
/-- The loop `for k, v in value.items()` inside `_flatten`. -/
def flattenPairs (pre : String) : List (String × Yaml) → List (String × String) → List (String × String)
  | [], dest => dest
  | (k, v) :: rest, dest =>
      flattenPairs pre rest (_flatten (if pre = "" then k else pre ++ "." ++ k) v dest)

end

/-- Outcome of `yaml.safe_load` on one file: the call raises on malformed
input, returns `None` on an empty document, and otherwise a document. -/
inductive YamlParse where
  | failed : YamlParse
  | loaded : Option Yaml → YamlParse

/-- One `*.yml` file under `docs/locale/`: its stem and what
`yaml.safe_load` does on its text. -/
structure YamlFile where
  stem : String
  parsed : YamlParse

/-- The `for path in locale_dir.glob` loop of `_load_yaml_translations`.
A file whose parse fails raises out of the loop (the exception is not
caught anywhere in `hooks.py`), modelled as `Except.error`. -/
def loadYamlFiles : List YamlFile → List (String × List (String × String)) →
    Except Unit (List (String × List (String × String)))
  | [], acc => .ok acc
  | f :: rest, acc =>
    match f.parsed with
    | .failed => .error ()
    | .loaded data? =>
        let data := data?.getD (Yaml.map [])
        let flat := _flatten "" data []
        loadYamlFiles rest (assocSet acc f.stem flat)

/-- `_load_yaml_translations(locale_dir)`: `none` models an absent
directory (empty table, no error); otherwise the files are loaded in
order. -/
def _load_yaml_translations (locale_dir : Option (List YamlFile)) :
    Except Unit (List (String × List (String × String))) :=
  match locale_dir with
  | none => .ok []
  | some files => loadYamlFiles files []

/-- Outcome of reading one catalog file (`read_po` or the `Translations`
constructor): raises on malformed input, else yields the message table. -/
inductive CatalogParse where
  | failed : CatalogParse
  | loaded : List (String × String) → CatalogParse

/-- One entry of `i18n_dir.iterdir()` in `_load_gettext_translations`:
the directory name, whether it is a directory, whether `LC_MESSAGES`
exists, and the state of `messages.po` and `messages.mo` inside it. -/
structure GettextLangDir where
  name : String
  is_dir : Bool
  lc_exists : Bool
  po_file : Option CatalogParse
  mo_file : Option CatalogParse

/-- The `for lang_dir in i18n_dir.iterdir()` loop of
`_load_gettext_translations`.  A catalog whose parse fails raises out of
the loop (nothing in `hooks.py` catches it), modelled as `Except.error`. -/
def loadGettextDirs : List GettextLangDir → List (String × List (String × String)) →
    Except Unit (List (String × List (String × String)))
  | [], acc => .ok acc
  | d :: rest, acc =>
    if !d.is_dir then loadGettextDirs rest acc
    else if !d.lc_exists then loadGettextDirs rest acc
    else match d.po_file with
      | some .failed => .error ()
      | some (.loaded cat) => loadGettextDirs rest (assocSet acc d.name cat)
      | none =>
        match d.mo_file with
        | some .failed => .error ()
        | some (.loaded cat) => loadGettextDirs rest (assocSet acc d.name cat)
        | none => loadGettextDirs rest acc

/-- `_load_gettext_translations(i18n_dir)`: `none` models an absent
directory (empty table, no error). -/
def _load_gettext_translations (i18n_dir : Option (List GettextLangDir)) :
    Except Unit (List (String × List (String × String))) :=
  match i18n_dir with
  | none => .ok []
  | some dirs => loadGettextDirs dirs []

/-- The two tables and the default language captured by the `translate`
closure returned from `_build_translator`. -/
structure TransTables where
  gettext_translations : List (String × List (String × String))
  yaml_translations : List (String × List (String × String))
  default_lang : String

/-- `_build_translator(config)` up to the closure: build both tables.  A
parse error from either loader propagates (there is no try/except around
the loaders). -/
def _build_translator (locale_dir : Option (List YamlFile))
    (i18n_dir : Option (List GettextLangDir)) (default_lang : String) :
    Except Unit TransTables :=
  match _load_yaml_translations locale_dir with
  | .error e => .error e
  | .ok yaml_translations =>
    match _load_gettext_translations i18n_dir with
    | .error e => .error e
    | .ok gettext_translations =>
      .ok ⟨gettext_translations, yaml_translations, default_lang⟩

/-- `translator.gettext(key)` for a loaded catalog: the translation when
the catalog holds the key, and the key itself when it does not (gettext
falls back to the message id). -/
def gettext (catalog : List (String × String)) (key : String) : String :=
  match assocFind key catalog with
  | some v => v
  | none => key

/-- The `translate(key, lang=None)` closure from `_build_translator`,
translated clause by clause.  `lang or default_lang` maps the omitted and
the empty language to the default; `if translator:` is the dictionary
hit (a `Translations` object is always truthy); `if value and value != key`
requires a non-empty value that differs from the key. -/
def translate (T : TransTables) (key : String) (lang : Option String) : String :=
  let current_lang :=
    match lang with
    | some l => if l = "" then T.default_lang else l
    | none => T.default_lang
  let step5 : String :=
    match assocFind key ((assocFind T.default_lang T.yaml_translations).getD []) with
    | some v => v
    | none => key
  let step45 : String :=
    match assocFind T.default_lang T.gettext_translations with
    | some fallback_translator =>
        let value := gettext fallback_translator key
        if value ≠ "" ∧ value ≠ key then value else step5
    | none => step5
  let step2345 : String :=
    let yaml_lang := (assocFind current_lang T.yaml_translations).getD []
    match assocFind key yaml_lang with
    | some v => v
    | none => step45
  match assocFind current_lang T.gettext_translations with
  | some translator =>
      let value := gettext translator key
      if value ≠ "" ∧ value ≠ key then value else step2345
  | none => step2345

/-! Specification-side descriptions of the fallback chain, for comparison
with `translate`. -/

/-- Catalog tier as the specification claim words it: return the catalog
value when the lookup finds the key and the value differs from the key
(identity comparison as the sole untranslated test). -/
def catalogTierClaim (gt : List (String × List (String × String)))
    (l key : String) : Option String :=
  match assocFind l gt with
  | some translator =>
    match assocFind key translator with
    | some v => if v ≠ key then some v else none
    | none => none
  | none => none

/-- Catalog tier as the code implements it: a value is used only when it
is non-empty and differs from the key. -/
def catalogTier (gt : List (String × List (String × String)))
    (l key : String) : Option String :=
  match assocFind l gt with
  | some translator =>
      let value := gettext translator key
      if value ≠ "" ∧ value ≠ key then some value else none
  | none => none

/-- Structured (flattened YAML) tier: the value of the key in the
requested-language table, when present. -/
def structuredTier (yt : List (String × List (String × String)))
    (l key : String) : Option String :=
  assocFind key ((assocFind l yt).getD [])

/-- The five-step chain exactly as the claim states it: requested catalog
(identity test only), requested structured, default catalog, default
structured, else the key; an omitted language means the default. -/
def resolveClaimChain (T : TransTables) (key : String) (lang : Option String) : String :=
  let current_lang := lang.getD T.default_lang
  ((catalogTierClaim T.gettext_translations current_lang key <|>
    structuredTier T.yaml_translations current_lang key <|>
    catalogTierClaim T.gettext_translations T.default_lang key <|>
    structuredTier T.yaml_translations T.default_lang key).getD key)

/-- The chain as the code implements it: an omitted or empty language
means the default, and each catalog tier requires a non-empty value that
differs from the key. -/
def resolveChain (T : TransTables) (key : String) (lang : Option String) : String :=
  let current_lang :=
    match lang with
    | some l => if l = "" then T.default_lang else l
    | none => T.default_lang
  ((catalogTier T.gettext_translations current_lang key <|>
    structuredTier T.yaml_translations current_lang key <|>
    catalogTier T.gettext_translations T.default_lang key <|>
    structuredTier T.yaml_translations T.default_lang key).getD key)

/-! ## Search index partitioner (`on_post_build`) -/

/-- JSON values, as returned by `json.loads`. -/
inductive Json where
  | str : String → Json
  | num : Int → Json
  | bool : Bool → Json
  | null : Json
  | arr : List Json → Json
  | obj : List (String × Json) → Json

/-- One configured language of the i18n plugin: its locale code and its
`default` flag. -/
structure LangCfg where
  locale : String
  default : Bool

/-- The i18n plugin configuration consumed by `on_post_build`. -/
structure I18nConfig where
  languages : List LangCfg
  default_language : String

/-- The `default_lang` computation of `on_post_build`: the first language
flagged default; when there is none, or its locale is falsy (empty), fall
back to `config.default_language`. -/
def defaultLang (cfg : I18nConfig) : String :=
  match cfg.languages.find? (fun lang => lang.default) with
  | some lang => if lang.locale = "" then cfg.default_language else lang.locale
  | none => cfg.default_language

/-- The fields of a JSON object (the search index schema has the parsed
index as an object, which is what `dict(data)` copies). -/
def objFields : Json → List (String × Json)
  | .obj fs => fs
  | _ => []

/-- `data.get("docs", [])`: the docs array of the parsed index (the index
schema has `docs` as an array when present). -/
def getDocs (data : Json) : List Json :=
  match data with
  | .obj fs =>
    match assocFind "docs" fs with
    | some (.arr ds) => ds
    | _ => []
  | _ => []

/-- `doc.get("location", "")`: the location of one docs entry (the index
schema has each entry as an object whose `location` is a string). -/
def doc_location (doc : Json) : String :=
  match doc with
  | .obj fs =>
    match assocFind "location" fs with
    | some (.str s) => s
    | _ => ""
  | _ => ""

/-- `is_lang_doc(doc, locale)` from `on_post_build`: the default locale
keeps every entry that is under no other configured language prefix; any
other locale keeps exactly the entries under its own prefix. -/
def is_lang_doc (languages : List String) (default_lang : String)
    (doc : Json) (locale : String) : Bool :=
  let location := doc_location doc
  if locale = default_lang then
    ! languages.any (fun lang =>
        (lang != default_lang) && strStartsWith location (lang ++ "/"))
  else
    strStartsWith location (locale ++ "/")

/-- The list comprehension `[doc for doc in docs if is_lang_doc(doc, locale)]`. -/
def filtered_docs (languages : List String) (default_lang : String)
    (docs : List Json) (locale : String) : List Json :=
  docs.filter (fun doc => is_lang_doc languages default_lang doc locale)

/-- Building `localized` for one locale: copy the index fields, replace
`docs` by the filtered subset, copy the `config` object (empty when absent)
and set its `lang` to the one-element list holding the locale. -/
def localize (data_fields : List (String × Json)) (filtered : List Json)
    (locale : String) : List (String × Json) :=
  let localized := assocSet data_fields "docs" (Json.arr filtered)
  let cfg :=
    match assocFind "config" localized with
    | some (.obj fs) => fs
    | _ => []
  assocSet localized "config"
    (Json.obj (assocSet cfg "lang" (Json.arr [Json.str locale])))

/-- The output path of one locale, relative to `site_dir`: the default
locale overwrites the original `search/search_index.json`; every other
locale gets `<locale>/search/search_index.json`. -/
def target_path (default_lang locale : String) : List String :=
  if locale = default_lang then ["search", "search_index.json"]
  else [locale, "search", "search_index.json"]

/-- The state of the combined index file: `none` when
`search/search_index.json` does not exist, `some none` when it exists but
`json.loads` raises (caught by the try/except), and `some (some data)`
when it parses. -/
def IndexState : Type := Option (Option Json)

/-- `on_post_build(config)`, modelled as the list of file writes it
performs, each a pair of a path relative to `site_dir` (as path segments)
and the JSON document written.  A missing index file, a missing i18n
plugin, or an unparsable index all end the hook early with no writes; a
locale with no matching entries is skipped by the `continue`. -/
def on_post_build (plugin : Option I18nConfig) (index : IndexState) :
    List (List String × Json) :=
  match index with
  | none => []
  | some parsed =>
    match plugin with
    | none => []
    | some cfg =>
      match parsed with
      | none => []
      | some data =>
        let languages := cfg.languages.map (fun lang => lang.locale)
        let default_lang := defaultLang cfg
        let docs := getDocs data
        languages.filterMap (fun locale =>
          let filtered := filtered_docs languages default_lang docs locale
          if filtered.isEmpty then none
          else some (target_path default_lang locale,
                     Json.obj (localize (objFields data) filtered locale)))

/-- The copied `config` object of the parsed index fields:
`dict(localized.get("config", {}))`, read before `lang` is set. -/
def config_fields (f : List (String × Json)) : List (String × Json) :=
  match assocFind "config" f with
  | some (.obj fs) => fs
  | _ => []

/-- The body of `translate` with the resolved current language as an
explicit argument; `translate` is definitionally this body applied to the
result of `lang or default_lang`. -/
def translate_body (T : TransTables) (key cur : String) : String :=
  let step5 : String :=
    match assocFind key ((assocFind T.default_lang T.yaml_translations).getD []) with
    | some v => v
    | none => key
  let step45 : String :=
    match assocFind T.default_lang T.gettext_translations with
    | some fallback_translator =>
        let value := gettext fallback_translator key
        if value ≠ "" ∧ value ≠ key then value else step5
    | none => step5
  let step2345 : String :=
    let yaml_lang := (assocFind cur T.yaml_translations).getD []
    match assocFind key yaml_lang with
    | some v => v
    | none => step45
  match assocFind cur T.gettext_translations with
  | some translator =>
      let value := gettext translator key
      if value ≠ "" ∧ value ≠ key then value else step2345
  | none => step2345

/-! ## Concrete build states used as test inputs -/

/-- Tables of a build whose French catalog holds `greet` with an empty
translation while the French YAML file translates it. -/
def exTables : TransTables :=
  ⟨[("fr", [("greet", "")])],
   [("fr", [("greet", "bonjour")]), ("en", [("a.b", "Hello")])],
   "en"⟩

/-- A site configured with locales `en` (default) and `fr`. -/
def exCfgEnFr : I18nConfig := ⟨[⟨"en", true⟩, ⟨"fr", false⟩], "en"⟩

/-- A search entry whose location starts with the unconfigured locale
prefix `de/`. -/
def exDocDe : Json := Json.obj [("location", Json.str "de/page")]

/-- A parsed index holding only the `de/` entry. -/
def exDataDe : Json :=
  Json.obj [("docs", Json.arr [exDocDe]),
            ("config", Json.obj [("lang", Json.arr [Json.str "en"])])]

/-- A site configured with locales `en` (default), `a`, and the
slash-carrying locale code `a/b`. -/
def exCfgNested : I18nConfig :=
  ⟨[⟨"en", true⟩, ⟨"a", false⟩, ⟨"a/b", false⟩], "en"⟩

/-- A search entry under both the `a/` and the `a/b/` locale prefixes. -/
def exDocAB : Json := Json.obj [("location", Json.str "a/b/x")]

/-- A search entry under the unconfigured prefix `de/`. -/
def exDocDeY : Json := Json.obj [("location", Json.str "de/y")]

/-- A parsed index holding the two entries above. -/
def exDataNested : Json := Json.obj [("docs", Json.arr [exDocAB, exDocDeY])]

/-- A French search entry. -/
def exDocFr : Json := Json.obj [("location", Json.str "fr/doc/")]

/-- A root-level (default-language) search entry. -/
def exDocRoot : Json := Json.obj [("location", Json.str "about/")]

/-- A parsed index holding one French and one root entry. -/
def exDataFr : Json := Json.obj [("docs", Json.arr [exDocFr, exDocRoot])]

/-- Index fields of an already-partitioned default output. -/
def exFieldsIdem : List (String × Json) :=
  [("docs", Json.arr []), ("config", Json.obj [("search_language", Json.str "en")])]

/-- A prefix-free search entry, as the default partition holds. -/
def exDocIdem : Json := Json.obj [("location", Json.str "index.html")]

/-- A search entry with no `location` field at all. -/
def exDocNoLoc : Json := Json.obj [("title", Json.str "Home")]

/-! ## Helper lemmas on the dictionary model -/

theorem assocFind_assocSet_self {α : Type} (l : List (String × α)) (k : String) (v : α) :
    assocFind k (assocSet l k v) = some v := by
  induction l with
  | nil => simp [assocFind, assocSet]
  | cons p rest ih =>
    obtain ⟨k', v'⟩ := p
    by_cases h : k' = k <;> simp [assocFind, assocSet, h, ih]

theorem assocFind_assocSet_ne {α : Type} (l : List (String × α)) (k k' : String) (v : α)
    (h : k' ≠ k) : assocFind k' (assocSet l k v) = assocFind k' l := by
  induction l with
  | nil => simp [assocFind, assocSet, Ne.symm h]
  | cons p rest ih =>
    obtain ⟨k₀, v₀⟩ := p
    by_cases hk : k₀ = k
    · subst hk
      simp [assocFind, assocSet, Ne.symm h]
    · by_cases hk' : k₀ = k' <;> simp [assocFind, assocSet, hk, hk', ih, h]

/-- Assigning a key the value it already holds leaves the dictionary
unchanged. -/
theorem assocSet_of_find_eq {α : Type} {l : List (String × α)} {k : String} {v : α}
    (h : assocFind k l = some v) : assocSet l k v = l := by
  induction l with
  | nil => simp [assocFind] at h
  | cons p rest ih =>
    obtain ⟨k₀, v₀⟩ := p
    by_cases hk : k₀ = k
    · subst hk
      simp [assocFind] at h
      simp [assocSet, h]
    · simp [assocFind, hk] at h
      simp [assocSet, hk, ih h]

/-! ## Helper lemmas on startswith -/

theorem charsStart_append_self (p t : List Char) : charsStart (p ++ t) p = true := by
  induction p with
  | nil => simp [charsStart]
  | cons c cs ih => simp [charsStart, ih]

theorem charsStart_nil (p : List Char) (h : p ≠ []) : charsStart [] p = false := by
  cases p with
  | nil => exact absurd rfl h
  | cons c cs => rfl

/-- Two slash-free strings extended with a slash cannot both be leading
segments of the same character list unless they are equal. -/
theorem charsStart_slash_unique (s a b : List Char)
    (ha : ∀ c ∈ a, c ≠ '/') (hb : ∀ c ∈ b, c ≠ '/')
    (h1 : charsStart s (a ++ ['/']) = true) (h2 : charsStart s (b ++ ['/']) = true) :
    a = b := by
  induction s generalizing a b with
  | nil =>
    cases a with
    | nil => simp [charsStart] at h1
    | cons x xs => simp [charsStart] at h1
  | cons c cs ih =>
    cases a with
    | nil =>
      cases b with
      | nil => rfl
      | cons y ys =>
        simp [charsStart] at h1 h2
        exact absurd (h2.1.symm.trans h1) (hb y (by simp))
    | cons x xs =>
      cases b with
      | nil =>
        simp [charsStart] at h1 h2
        exact absurd (h1.1.symm.trans h2) (ha x (by simp))
      | cons y ys =>
        simp [charsStart] at h1 h2
        have hxs := ih xs ys (fun c hc => ha c (by simp [hc]))
          (fun c hc => hb c (by simp [hc])) h1.2 h2.2
        have hxy : x = y := h1.1.symm.trans h2.1
        rw [hxs, hxy]

theorem strStartsWith_append_slash (s l : String) :
    strStartsWith s (l ++ "/") = charsStart s.data (l.data ++ ['/']) := by
  simp [strStartsWith, String.data_append]

theorem strStartsWith_empty (l : String) : strStartsWith "" (l ++ "/") = false := by
  rw [strStartsWith_append_slash]
  have : ("" : String).data = [] := rfl
  rw [this]
  apply charsStart_nil
  cases l.data <;> simp

/-- Two slash-free locale codes cannot both be the leading path segment of
the same location. -/
theorem strStartsWith_slash_unique (s a b : String)
    (ha : ∀ c ∈ a.data, c ≠ '/') (hb : ∀ c ∈ b.data, c ≠ '/')
    (h1 : strStartsWith s (a ++ "/") = true) (h2 : strStartsWith s (b ++ "/") = true) :
    a = b := by
  rw [strStartsWith_append_slash] at h1 h2
  exact String.ext (charsStart_slash_unique s.data a.data b.data ha hb h1 h2)

/-! ## Helper lemmas on localize and the partitioner -/

theorem localize_eq (f : List (String × Json)) (d : List Json) (l : String) :
    localize f d l =
      assocSet (assocSet f "docs" (Json.arr d)) "config"
        (Json.obj (assocSet (config_fields f) "lang" (Json.arr [Json.str l]))) := by
  unfold localize config_fields
  dsimp only
  rw [assocFind_assocSet_ne f "docs" "config" (Json.arr d) (by decide)]

theorem assocFind_docs_localize (f : List (String × Json)) (d : List Json) (l : String) :
    assocFind "docs" (localize f d l) = some (Json.arr d) := by
  rw [localize_eq, assocFind_assocSet_ne _ _ _ _ (by decide), assocFind_assocSet_self]

theorem assocFind_config_localize (f : List (String × Json)) (d : List Json) (l : String) :
    assocFind "config" (localize f d l) =
      some (Json.obj (assocSet (config_fields f) "lang" (Json.arr [Json.str l]))) := by
  rw [localize_eq, assocFind_assocSet_self]

theorem assocFind_localize_ne (f : List (String × Json)) (d : List Json) (l k : String)
    (h1 : k ≠ "docs") (h2 : k ≠ "config") :
    assocFind k (localize f d l) = assocFind k f := by
  rw [localize_eq, assocFind_assocSet_ne _ _ _ _ h2, assocFind_assocSet_ne _ _ _ _ h1]

theorem getDocs_localize (f : List (String × Json)) (d : List Json) (l : String) :
    getDocs (Json.obj (localize f d l)) = d := by
  simp [getDocs, assocFind_docs_localize]

theorem objFields_localize (f : List (String × Json)) (d : List Json) (l : String) :
    objFields (Json.obj (localize f d l)) = localize f d l := rfl

theorem config_fields_localize (f : List (String × Json)) (d : List Json) (l : String) :
    config_fields (localize f d l) =
      assocSet (config_fields f) "lang" (Json.arr [Json.str l]) := by
  simp [config_fields, assocFind_config_localize]

/-- Rebuilding a localized document from itself with the same filtered
docs and locale gives it back unchanged. -/
theorem localize_localize (f : List (String × Json)) (d : List Json) (l : String) :
    localize (localize f d l) d l = localize f d l := by
  rw [localize_eq (localize f d l) d l,
      assocSet_of_find_eq (assocFind_docs_localize f d l),
      config_fields_localize,
      assocSet_of_find_eq (assocFind_assocSet_self (config_fields f) "lang" _)]
  exact assocSet_of_find_eq (assocFind_config_localize f d l)

theorem target_path_inj (dl a b : String) (h : target_path dl a = target_path dl b) :
    a = b := by
  by_cases ha : a = dl <;> by_cases hb : b = dl
  · exact ha.trans hb.symm
  · exfalso
    have hl := congrArg List.length h
    simp [target_path, ha, hb] at hl
  · exfalso
    have hl := congrArg List.length h
    simp [target_path, ha, hb] at hl
  · simp [target_path, ha, hb] at h
    exact h

/-! ## Helper lemmas on the translate chain -/

theorem translate_eq_body (T : TransTables) (key : String) (lang : Option String) :
    translate T key lang =
      translate_body T key
        (match lang with
         | some l => if l = "" then T.default_lang else l
         | none => T.default_lang) := rfl

theorem translate_body_eq_chain (T : TransTables) (key cur : String) :
    translate_body T key cur =
      ((catalogTier T.gettext_translations cur key <|>
        structuredTier T.yaml_translations cur key <|>
        catalogTier T.gettext_translations T.default_lang key <|>
        structuredTier T.yaml_translations T.default_lang key).getD key) := by
  unfold translate_body catalogTier structuredTier
  rcases hA : assocFind cur T.gettext_translations with _ | tr <;>
  rcases hB : assocFind T.default_lang T.gettext_translations with _ | ft <;>
  simp only [hA, hB] <;>
  (try split_ifs) <;>
  rcases hY : assocFind key ((assocFind cur T.yaml_translations).getD []) with _ | v <;>
  rcases hZ : assocFind key ((assocFind T.default_lang T.yaml_translations).getD []) with _ | w <;>
  simp_all [Option.none_orElse, Option.some_orElse, Option.getD_some, Option.getD_none]

theorem translate_eq_resolveChain (T : TransTables) (key : String) (lang : Option String) :
    translate T key lang = resolveChain T key lang := by
  rw [translate_eq_body]
  cases lang with
  | none => exact translate_body_eq_chain T key T.default_lang
  | some l =>
    by_cases hl : l = ""
    · simp only [hl, if_pos rfl]
      have h := translate_body_eq_chain T key T.default_lang
      simp only [resolveChain, hl, if_pos rfl]
      exact h
    · simp only [if_neg hl]
      have h := translate_body_eq_chain T key l
      simp only [resolveChain, if_neg hl]
      exact h

/-! ## Helper lemmas on the loaders -/

theorem loadYamlFiles_ok (files : List YamlFile)
    (acc : List (String × List (String × String)))
    (h : ∀ f ∈ files, f.parsed ≠ YamlParse.failed) :
    ∃ t, loadYamlFiles files acc = Except.ok t := by
  induction files generalizing acc with
  | nil => exact ⟨acc, rfl⟩
  | cons f rest ih =>
    cases hp : f.parsed with
    | failed => exact absurd hp (h f (by simp))
    | loaded d =>
      simp only [loadYamlFiles, hp]
      exact ih _ (fun g hg => h g (by simp [hg]))

theorem loadYamlFiles_error (files : List YamlFile)
    (acc : List (String × List (String × String)))
    (h : ∃ f ∈ files, f.parsed = YamlParse.failed) :
    loadYamlFiles files acc = Except.error () := by
  induction files generalizing acc with
  | nil => simp at h
  | cons f rest ih =>
    obtain ⟨g, hg, hgp⟩ := h
    rcases List.mem_cons.mp hg with rfl | hg'
    · simp [loadYamlFiles, hgp]
    · cases hp : f.parsed with
      | failed => simp [loadYamlFiles, hp]
      | loaded d =>
        simp only [loadYamlFiles, hp]
        exact ih _ ⟨g, hg', hgp⟩

theorem loadGettextDirs_error (dirs : List GettextLangDir)
    (acc : List (String × List (String × String)))
    (h : ∃ d ∈ dirs, d.is_dir = true ∧ d.lc_exists = true ∧
         d.po_file = some CatalogParse.failed) :
    loadGettextDirs dirs acc = Except.error () := by
  induction dirs generalizing acc with
  | nil => simp at h
  | cons d rest ih =>
    obtain ⟨g, hg, h1, h2, h3⟩ := h
    rcases List.mem_cons.mp hg with rfl | hg'
    · simp [loadGettextDirs, h1, h2, h3]
    · have hrec : ∀ acc', loadGettextDirs rest acc' = Except.error () :=
        fun acc' => ih acc' ⟨g, hg', h1, h2, h3⟩
      cases hdir : d.is_dir with
      | false => simp [loadGettextDirs, hdir, hrec]
      | true =>
        cases hlc : d.lc_exists with
        | false => simp [loadGettextDirs, hdir, hlc, hrec]
        | true =>
          rcases hpo : d.po_file with _ | pf
          · rcases hmo : d.mo_file with _ | mf
            · simp [loadGettextDirs, hdir, hlc, hpo, hmo, hrec]
            · cases mf <;> simp [loadGettextDirs, hdir, hlc, hpo, hmo, hrec]
          · cases pf <;> simp [loadGettextDirs, hdir, hlc, hpo, hrec]

/-! ## Claims about the translator and the loaders -/

/-- C1, counterexample: with a French catalog mapping `greet` to the empty
string and a French YAML entry `bonjour`, the claimed chain (whose only
untranslated test is identity with the key) returns the empty catalog
value, while `translate` returns the YAML value `bonjour`.  The claim
that `translate` follows that chain is therefore false. -/
theorem C1_counterexample :
    translate exTables "greet" (some "fr") = "bonjour" ∧
    resolveClaimChain exTables "greet" (some "fr") = "" ∧
    ("bonjour" : String) ≠ "" :=
  ⟨rfl, rfl, by decide⟩

/-- C1 (amended): `translate` returns the value of the ordered chain:
requested-language catalog, requested-language structured table, default
catalog, default structured table, else the key itself — where an omitted
or empty language argument means the default language, and a catalog value
is used only when it is non-empty AND differs from the key (Python
truthiness plus identity, not identity alone). -/
theorem C1_translate_follows_chain (T : TransTables) (key : String) (lang : Option String) :
    translate T key lang = resolveChain T key lang :=
  translate_eq_resolveChain T key lang

/-- C9: a catalog entry whose value is falsy (the empty string) is treated
as not found even though it differs from the key: `translate` skips it and
continues with the structured table of the requested language and then the
default-language tiers. -/
theorem C9_falsy_catalog_value_skipped (T : TransTables) (l key : String)
    (tr : List (String × String)) (hl : l ≠ "")
    (htr : assocFind l T.gettext_translations = some tr)
    (hempty : assocFind key tr = some "") (hkey : key ≠ "") :
    translate T key (some l) =
      ((structuredTier T.yaml_translations l key <|>
        catalogTier T.gettext_translations T.default_lang key <|>
        structuredTier T.yaml_translations T.default_lang key).getD key) := by
  rw [translate_eq_resolveChain]
  have hcat : catalogTier T.gettext_translations l key = none := by
    simp [catalogTier, gettext, htr, hempty]
  simp only [resolveChain, if_neg hl, hcat, Option.none_orElse]

/-- Witness for C9 at the concrete tables `exTables`. -/
theorem C9_witness :
    translate exTables "greet" (some "fr") =
      ((structuredTier exTables.yaml_translations "fr" "greet" <|>
        catalogTier exTables.gettext_translations exTables.default_lang "greet" <|>
        structuredTier exTables.yaml_translations exTables.default_lang "greet").getD "greet") :=
  C9_falsy_catalog_value_skipped exTables "fr" "greet" [("greet", "")]
    (by decide) (by decide) (by decide) (by decide)

/-- C2, counterexample: one YAML translation file whose parse fails makes
`_load_yaml_translations`, and with it translator construction, return an
error instead of degrading to a no-op: the claim that malformed resources
are caught and never propagated is false. -/
theorem C2_counterexample :
    _load_yaml_translations (some [⟨"fr", YamlParse.failed⟩]) = Except.error () ∧
    _build_translator (some [⟨"fr", YamlParse.failed⟩]) none "en" = Except.error () :=
  ⟨rfl, rfl⟩

/-- C2 (amended): a missing directory degrades to an empty table with no
error, but a malformed resource is NOT caught: an unparsable YAML
translation file, or an unparsable catalog that the loader reaches, makes
the loader propagate the error to the caller of translator construction. -/
theorem C2_loader_error_propagation :
    (_load_yaml_translations none = Except.ok []) ∧
    (_load_gettext_translations none = Except.ok []) ∧
    (∀ files : List YamlFile, (∀ f ∈ files, f.parsed ≠ YamlParse.failed) →
      ∃ t, _load_yaml_translations (some files) = Except.ok t) ∧
    (∀ files : List YamlFile, (∃ f ∈ files, f.parsed = YamlParse.failed) →
      _load_yaml_translations (some files) = Except.error ()) ∧
    (∀ dirs : List GettextLangDir,
      (∃ d ∈ dirs, d.is_dir = true ∧ d.lc_exists = true ∧
        d.po_file = some CatalogParse.failed) →
      _load_gettext_translations (some dirs) = Except.error ()) :=
  ⟨rfl, rfl,
   fun files h => loadYamlFiles_ok files [] h,
   fun files h => loadYamlFiles_error files [] h,
   fun dirs h => loadGettextDirs_error dirs [] h⟩

/-- Witness for C2 (amended) at concrete directory contents. -/
theorem C2_witness :
    (∃ t, _load_yaml_translations (some [⟨"en", YamlParse.loaded none⟩]) = Except.ok t) ∧
    _load_yaml_translations
      (some [⟨"en", YamlParse.loaded none⟩, ⟨"de", YamlParse.failed⟩]) = Except.error () ∧
    _load_gettext_translations
      (some [⟨"de", true, true, some CatalogParse.failed, none⟩]) = Except.error () :=
  ⟨C2_loader_error_propagation.2.2.1 _
     (by intro f hf; rw [List.mem_singleton] at hf; subst hf; simp),
   C2_loader_error_propagation.2.2.2.1 _ ⟨⟨"de", YamlParse.failed⟩, by simp, rfl⟩,
   C2_loader_error_propagation.2.2.2.2 _
     ⟨⟨"de", true, true, some CatalogParse.failed, none⟩, by simp, rfl, rfl, rfl⟩⟩

/-! ## Claims about the partitioner -/

/-- C4: when the combined index file is missing, or present but failing to
parse as JSON, `on_post_build` performs no writes (and, being a total
function of the modelled state, raises nothing). -/
theorem C4_missing_or_malformed_noop (plugin : Option I18nConfig) :
    on_post_build plugin none = [] ∧ on_post_build plugin (some none) = [] := by
  cases plugin <;> exact ⟨rfl, rfl⟩

theorem strStartsWith_self_append (X rest : String) :
    strStartsWith (X ++ "/" ++ rest) (X ++ "/") = true := by
  unfold strStartsWith
  rw [String.data_append (X ++ "/") rest]
  exact charsStart_append_self _ _

theorem filtered_docs_subset (languages : List String) (dl : String)
    (docs : List Json) (locale : String) (doc : Json)
    (h : doc ∈ filtered_docs languages dl docs locale) : doc ∈ docs :=
  (List.mem_filter.mp h).1

/-- Entries that all satisfy the default-locale test are dropped by every
configured non-default locale filter. -/
theorem filtered_nondefault_nil (languages : List String) (dl : String)
    (fd : List Json) (loc : String) (hmemL : loc ∈ languages) (hne : loc ≠ dl)
    (hfree : ∀ doc ∈ fd, is_lang_doc languages dl doc dl = true) :
    filtered_docs languages dl fd loc = [] := by
  unfold filtered_docs
  apply List.filter_eq_nil_iff.mpr
  intro doc hd
  have h := hfree doc hd
  simp only [is_lang_doc, if_true, eq_self_iff_true, Bool.not_eq_true'] at h
  have hloc := List.any_eq_false.mp h loc hmemL
  simp only [is_lang_doc, if_neg hne]
  intro hsw
  exact hloc (by simp [bne_iff_ne, hne, hsw])

/-- C3, counterexample: with configured locales `en` (default) and `fr`,
the entry at `de/page` — `de` being no configured locale — is NOT excluded
from all partitions: the emitted default partition (written to the root
index path) contains it. -/
theorem C3_counterexample :
    ("de" : String) ∉ ["en", "fr"] ∧
    on_post_build (some exCfgEnFr) (some (some exDataDe)) =
      [(["search", "search_index.json"], exDataDe)] ∧
    exDocDe ∈ getDocs exDataDe :=
  ⟨by decide, rfl, List.mem_singleton.mpr rfl⟩

/-- C3 (amended): an entry whose location starts with `X/` for a
slash-free `X` that is no configured locale is excluded from every
non-default locale partition but is INCLUDED in the default locale
partition (it is under no configured non-default prefix). -/
theorem C3_unrecognized_goes_to_default (languages : List String) (dl : String)
    (docs : List Json) (doc : Json) (X rest : String)
    (hloc : doc_location doc = X ++ "/" ++ rest)
    (hX : X ∉ languages) (hXs : ∀ c ∈ X.data, c ≠ '/')
    (hLs : ∀ lang ∈ languages, ∀ c ∈ lang.data, c ≠ '/')
    (hmem : doc ∈ docs) :
    doc ∈ filtered_docs languages dl docs dl ∧
    ∀ locale ∈ languages, locale ≠ dl → doc ∉ filtered_docs languages dl docs locale := by
  have hstart : ∀ lang ∈ languages,
      strStartsWith (doc_location doc) (lang ++ "/") = false := by
    intro lang hlang
    cases hsw : strStartsWith (doc_location doc) (lang ++ "/") with
    | false => rfl
    | true =>
      exfalso
      have hself : strStartsWith (doc_location doc) (X ++ "/") = true := by
        rw [hloc]; exact strStartsWith_self_append X rest
      have heq := strStartsWith_slash_unique (doc_location doc) lang X
        (hLs lang hlang) hXs hsw hself
      rw [heq] at hlang
      exact hX hlang
  constructor
  · refine List.mem_filter.mpr ⟨hmem, ?_⟩
    simp only [is_lang_doc, if_true, eq_self_iff_true, Bool.not_eq_true']
    apply List.any_eq_false.mpr
    intro lang hlang
    simp [hstart lang hlang]
  · intro locale hlocale hne hmem2
    have h := (List.mem_filter.mp hmem2).2
    simp only [is_lang_doc, if_neg hne] at h
    rw [hstart locale hlocale] at h
    exact Bool.false_ne_true h

/-- Witness for C3 (amended): the `de/page` entry lands in the default
partition of the `en`/`fr` site and in no other partition. -/
theorem C3_witness :
    exDocDe ∈ filtered_docs ["en", "fr"] "en" [exDocDe] "en" ∧
    ∀ locale ∈ ["en", "fr"], locale ≠ "en" →
      exDocDe ∉ filtered_docs ["en", "fr"] "en" [exDocDe] locale :=
  C3_unrecognized_goes_to_default ["en", "fr"] "en" [exDocDe] exDocDe "de" "page"
    rfl (by decide) (by decide) (by decide) (List.mem_singleton.mpr rfl)

/-- C5, counterexample: with configured locales `en` (default), `a` and
`a/b`, the entry at `a/b/x` is included in TWO emitted partitions (`a` and
`a/b`), and the entry at the unconfigured prefix `de/y` appears in the
default partition rather than in none — both parts of the claim fail. -/
theorem C5_counterexample :
    on_post_build (some exCfgNested) (some (some exDataNested)) =
      [(["search", "search_index.json"],
        Json.obj [("docs", Json.arr [exDocDeY]),
                  ("config", Json.obj [("lang", Json.arr [Json.str "en"])])]),
       (["a", "search", "search_index.json"],
        Json.obj [("docs", Json.arr [exDocAB]),
                  ("config", Json.obj [("lang", Json.arr [Json.str "a"])])]),
       (["a/b", "search", "search_index.json"],
        Json.obj [("docs", Json.arr [exDocAB]),
                  ("config", Json.obj [("lang", Json.arr [Json.str "a/b"])])])] ∧
    exDocAB ∈ filtered_docs ["en", "a", "a/b"] "en" [exDocAB, exDocDeY] "a" ∧
    exDocAB ∈ filtered_docs ["en", "a", "a/b"] "en" [exDocAB, exDocDeY] "a/b" ∧
    exDocDeY ∈ filtered_docs ["en", "a", "a/b"] "en" [exDocAB, exDocDeY] "en" :=
  ⟨rfl, List.mem_singleton.mpr rfl, List.mem_singleton.mpr rfl,
   List.mem_singleton.mpr rfl⟩

/-- C5 (amended): when locale codes are slash-free (as real locale codes
are), an entry belongs to the filtered docs list of at most one distinct
configured locale; an entry under no configured prefix falls into the
default partition rather than into none. -/
theorem C5_at_most_one_partition (languages : List String) (dl : String)
    (docs : List Json) (doc : Json) (l1 l2 : String)
    (h1 : l1 ∈ languages) (h2 : l2 ∈ languages) (hne : l1 ≠ l2)
    (hs1 : ∀ c ∈ l1.data, c ≠ '/') (hs2 : ∀ c ∈ l2.data, c ≠ '/')
    (hmem : doc ∈ filtered_docs languages dl docs l1) :
    doc ∉ filtered_docs languages dl docs l2 := by
  intro hmem2
  have ha := (List.mem_filter.mp hmem).2
  have hb := (List.mem_filter.mp hmem2).2
  by_cases e1 : l1 = dl
  · subst e1
    simp only [is_lang_doc, if_true, eq_self_iff_true, Bool.not_eq_true'] at ha
    simp only [is_lang_doc, if_neg (Ne.symm hne)] at hb
    have h := List.any_eq_false.mp ha l2 h2
    exact h (by simp [bne_iff_ne, Ne.symm hne, hb])
  · by_cases e2 : l2 = dl
    · subst e2
      simp only [is_lang_doc, if_neg e1] at ha
      simp only [is_lang_doc, if_true, eq_self_iff_true, Bool.not_eq_true'] at hb
      have h := List.any_eq_false.mp hb l1 h1
      exact h (by simp [bne_iff_ne, e1, ha])
    · simp only [is_lang_doc, if_neg e1] at ha
      simp only [is_lang_doc, if_neg e2] at hb
      exact hne (strStartsWith_slash_unique _ l1 l2 hs1 hs2 ha hb)

/-- Witness for C5 (amended): the French entry is in the `fr` list and
therefore not in the default `en` list. -/
theorem C5_witness :
    exDocFr ∉ filtered_docs ["en", "fr"] "en" [exDocFr] "en" :=
  C5_at_most_one_partition ["en", "fr"] "en" [exDocFr] exDocFr "fr" "en"
    (by decide) (by decide) (by decide) (by decide) (by decide)
    (List.mem_singleton.mpr rfl)

/-- C6: a locale with at least one matching entry gets exactly one write,
at the root index path for the default locale and at
`<locale>/search/search_index.json` for any other; a locale with no
matching entries gets no write at its target path (and no error). -/
theorem C6_write_targets (cfg : I18nConfig) (data : Json) (locale : String)
    (hmem : locale ∈ cfg.languages.map (fun lang => lang.locale)) :
    (filtered_docs (cfg.languages.map (fun lang => lang.locale)) (defaultLang cfg)
        (getDocs data) locale ≠ [] →
      (target_path (defaultLang cfg) locale,
       Json.obj (localize (objFields data)
         (filtered_docs (cfg.languages.map (fun lang => lang.locale)) (defaultLang cfg)
           (getDocs data) locale) locale)) ∈
        on_post_build (some cfg) (some (some data))) ∧
    (filtered_docs (cfg.languages.map (fun lang => lang.locale)) (defaultLang cfg)
        (getDocs data) locale = [] →
      ∀ w ∈ on_post_build (some cfg) (some (some data)),
        w.1 ≠ target_path (defaultLang cfg) locale) := by
  constructor
  · intro hne
    have hie : (filtered_docs (cfg.languages.map (fun lang => lang.locale)) (defaultLang cfg)
        (getDocs data) locale).isEmpty = false := by
      cases hie2 : (filtered_docs (cfg.languages.map (fun lang => lang.locale)) (defaultLang cfg)
          (getDocs data) locale).isEmpty with
      | false => rfl
      | true => exact absurd (List.isEmpty_iff.mp hie2) hne
    simp only [on_post_build]
    apply List.mem_filterMap.mpr
    refine ⟨locale, hmem, ?_⟩
    try dsimp only
    rw [if_neg (by simp [hie])]
  · intro hnil w hw hpath
    simp only [on_post_build] at hw
    obtain ⟨loc', hmem', hsome⟩ := List.mem_filterMap.mp hw
    try dsimp only at hsome
    cases hie : (filtered_docs (cfg.languages.map (fun lang => lang.locale)) (defaultLang cfg)
        (getDocs data) loc').isEmpty with
    | true =>
      rw [if_pos hie] at hsome
      exact Option.noConfusion hsome
    | false =>
      rw [if_neg (by simp [hie])] at hsome
      have hw1 : w.1 = target_path (defaultLang cfg) loc' := by
        rw [← Option.some.inj hsome]
      have hll : loc' = locale := target_path_inj _ _ _ (hw1.symm.trans hpath)
      subst hll
      rw [hnil] at hie
      simp at hie

/-- Witness for C6 at the `en`/`fr` site whose index holds one French and
one root entry, for the locale `fr`. -/
theorem C6_witness :
    (filtered_docs (exCfgEnFr.languages.map (fun lang => lang.locale)) (defaultLang exCfgEnFr)
        (getDocs exDataFr) "fr" ≠ [] →
      (target_path (defaultLang exCfgEnFr) "fr",
       Json.obj (localize (objFields exDataFr)
         (filtered_docs (exCfgEnFr.languages.map (fun lang => lang.locale)) (defaultLang exCfgEnFr)
           (getDocs exDataFr) "fr") "fr")) ∈
        on_post_build (some exCfgEnFr) (some (some exDataFr))) ∧
    (filtered_docs (exCfgEnFr.languages.map (fun lang => lang.locale)) (defaultLang exCfgEnFr)
        (getDocs exDataFr) "fr" = [] →
      ∀ w ∈ on_post_build (some exCfgEnFr) (some (some exDataFr)),
        w.1 ≠ target_path (defaultLang exCfgEnFr) "fr") :=
  C6_write_targets exCfgEnFr exDataFr "fr" (by decide)

/-- C7: every emitted document is the original index document with `docs`
replaced by a subset of the original entries (each entry unchanged) and
`config.lang` replaced by the one-element locale list; every other
top-level field, and every other `config` field, is preserved. -/
theorem C7_pure_filter (cfg : I18nConfig) (data : Json) (path : List String) (out : Json)
    (hw : (path, out) ∈ on_post_build (some cfg) (some (some data))) :
    ∃ locale fd,
      fd = filtered_docs (cfg.languages.map (fun lang => lang.locale)) (defaultLang cfg)
        (getDocs data) locale ∧
      locale ∈ cfg.languages.map (fun lang => lang.locale) ∧
      out = Json.obj (localize (objFields data) fd locale) ∧
      (∀ doc ∈ fd, doc ∈ getDocs data) ∧
      assocFind "docs" (localize (objFields data) fd locale) = some (Json.arr fd) ∧
      (∀ k, k ≠ "docs" → k ≠ "config" →
        assocFind k (localize (objFields data) fd locale) = assocFind k (objFields data)) ∧
      assocFind "config" (localize (objFields data) fd locale) =
        some (Json.obj (assocSet (config_fields (objFields data)) "lang"
          (Json.arr [Json.str locale]))) ∧
      assocFind "lang" (assocSet (config_fields (objFields data)) "lang"
        (Json.arr [Json.str locale])) = some (Json.arr [Json.str locale]) ∧
      (∀ k, k ≠ "lang" →
        assocFind k (assocSet (config_fields (objFields data)) "lang"
          (Json.arr [Json.str locale])) = assocFind k (config_fields (objFields data))) := by
  simp only [on_post_build] at hw
  obtain ⟨locale, hmem, hsome⟩ := List.mem_filterMap.mp hw
  try dsimp only at hsome
  cases hie : (filtered_docs (cfg.languages.map (fun lang => lang.locale)) (defaultLang cfg)
      (getDocs data) locale).isEmpty with
  | true =>
    rw [if_pos hie] at hsome
    exact Option.noConfusion hsome
  | false =>
    rw [if_neg (by simp [hie])] at hsome
    have hout : out = Json.obj (localize (objFields data)
        (filtered_docs (cfg.languages.map (fun lang => lang.locale)) (defaultLang cfg)
          (getDocs data) locale) locale) :=
      (congrArg Prod.snd (Option.some.inj hsome)).symm
    exact ⟨locale, _, rfl, hmem, hout,
      fun doc hd => filtered_docs_subset _ _ _ _ _ hd,
      assocFind_docs_localize _ _ _,
      fun k h1 h2 => assocFind_localize_ne _ _ _ _ h1 h2,
      assocFind_config_localize _ _ _,
      assocFind_assocSet_self _ _ _,
      fun k hk => assocFind_assocSet_ne _ _ _ _ hk⟩

/-- Witness for C7 at the French write of the `en`/`fr` site. -/
theorem C7_witness :
    ∃ locale fd,
      fd = filtered_docs (exCfgEnFr.languages.map (fun lang => lang.locale)) (defaultLang exCfgEnFr)
        (getDocs exDataFr) locale ∧
      locale ∈ exCfgEnFr.languages.map (fun lang => lang.locale) ∧
      Json.obj (localize (objFields exDataFr) [exDocFr] "fr") =
        Json.obj (localize (objFields exDataFr) fd locale) ∧
      (∀ doc ∈ fd, doc ∈ getDocs exDataFr) ∧
      assocFind "docs" (localize (objFields exDataFr) fd locale) = some (Json.arr fd) ∧
      (∀ k, k ≠ "docs" → k ≠ "config" →
        assocFind k (localize (objFields exDataFr) fd locale) =
          assocFind k (objFields exDataFr)) ∧
      assocFind "config" (localize (objFields exDataFr) fd locale) =
        some (Json.obj (assocSet (config_fields (objFields exDataFr)) "lang"
          (Json.arr [Json.str locale]))) ∧
      assocFind "lang" (assocSet (config_fields (objFields exDataFr)) "lang"
        (Json.arr [Json.str locale])) = some (Json.arr [Json.str locale]) ∧
      (∀ k, k ≠ "lang" →
        assocFind k (assocSet (config_fields (objFields exDataFr)) "lang"
          (Json.arr [Json.str locale])) = assocFind k (config_fields (objFields exDataFr))) :=
  C7_pure_filter exCfgEnFr exDataFr ["fr", "search", "search_index.json"]
    (Json.obj (localize (objFields exDataFr) [exDocFr] "fr"))
    (by
      have h : on_post_build (some exCfgEnFr) (some (some exDataFr)) =
          [(["search", "search_index.json"],
            Json.obj (localize (objFields exDataFr) [exDocRoot] "en")),
           (["fr", "search", "search_index.json"],
            Json.obj (localize (objFields exDataFr) [exDocFr] "fr"))] := rfl
      rw [h]
      exact List.Mem.tail _ (List.Mem.head _))

/-- C8: on an input whose entries all pass the default-locale test (the
default partition of a previous run), the default filter keeps the docs
list unchanged, and re-running the partitioner writes exactly the input
document back to the root index path. -/
theorem C8_partition_idempotent (cfg : I18nConfig) (f : List (String × Json)) (fd : List Json)
    (hne : fd ≠ [])
    (hdl : defaultLang cfg ∈ cfg.languages.map (fun lang => lang.locale))
    (hfree : ∀ doc ∈ fd,
      is_lang_doc (cfg.languages.map (fun lang => lang.locale)) (defaultLang cfg) doc
        (defaultLang cfg) = true) :
    filtered_docs (cfg.languages.map (fun lang => lang.locale)) (defaultLang cfg)
        (getDocs (Json.obj (localize f fd (defaultLang cfg)))) (defaultLang cfg) =
      getDocs (Json.obj (localize f fd (defaultLang cfg))) ∧
    (["search", "search_index.json"], Json.obj (localize f fd (defaultLang cfg))) ∈
      on_post_build (some cfg) (some (some (Json.obj (localize f fd (defaultLang cfg))))) ∧
    ∀ w ∈ on_post_build (some cfg) (some (some (Json.obj (localize f fd (defaultLang cfg))))),
      w = (["search", "search_index.json"], Json.obj (localize f fd (defaultLang cfg))) := by
  have hgd : getDocs (Json.obj (localize f fd (defaultLang cfg))) = fd :=
    getDocs_localize f fd _
  have hfilter : filtered_docs (cfg.languages.map (fun lang => lang.locale)) (defaultLang cfg)
      fd (defaultLang cfg) = fd := by
    unfold filtered_docs
    exact List.filter_eq_self.mpr hfree
  have hie : fd.isEmpty = false := by
    cases fd with
    | nil => exact absurd rfl hne
    | cons a l => rfl
  have htp : target_path (defaultLang cfg) (defaultLang cfg) = ["search", "search_index.json"] :=
    if_pos rfl
  refine ⟨?_, ?_, ?_⟩
  · rw [hgd, hfilter]
  · simp only [on_post_build]
    apply List.mem_filterMap.mpr
    refine ⟨defaultLang cfg, hdl, ?_⟩
    try dsimp only
    rw [hgd, hfilter, if_neg (by simp [hie]), htp, objFields_localize, localize_localize]
  · intro w hw
    simp only [on_post_build] at hw
    obtain ⟨loc', hmem', hsome⟩ := List.mem_filterMap.mp hw
    try dsimp only at hsome
    by_cases hloc : loc' = defaultLang cfg
    · subst hloc
      rw [hgd, hfilter, if_neg (by simp [hie]), htp, objFields_localize,
          localize_localize] at hsome
      exact (Option.some.inj hsome).symm
    · have hnil2 : filtered_docs (cfg.languages.map (fun lang => lang.locale)) (defaultLang cfg)
          (getDocs (Json.obj (localize f fd (defaultLang cfg)))) loc' = [] := by
        rw [hgd]
        exact filtered_nondefault_nil _ _ fd loc' hmem' hloc hfree
      rw [hnil2] at hsome
      simp at hsome

/-- Witness for C8 at a concrete already-partitioned default output. -/
theorem C8_witness :
    filtered_docs (exCfgEnFr.languages.map (fun lang => lang.locale)) (defaultLang exCfgEnFr)
        (getDocs (Json.obj (localize exFieldsIdem [exDocIdem] (defaultLang exCfgEnFr))))
        (defaultLang exCfgEnFr) =
      getDocs (Json.obj (localize exFieldsIdem [exDocIdem] (defaultLang exCfgEnFr))) ∧
    (["search", "search_index.json"],
     Json.obj (localize exFieldsIdem [exDocIdem] (defaultLang exCfgEnFr))) ∈
      on_post_build (some exCfgEnFr)
        (some (some (Json.obj (localize exFieldsIdem [exDocIdem] (defaultLang exCfgEnFr))))) ∧
    ∀ w ∈ on_post_build (some exCfgEnFr)
        (some (some (Json.obj (localize exFieldsIdem [exDocIdem] (defaultLang exCfgEnFr))))),
      w = (["search", "search_index.json"],
           Json.obj (localize exFieldsIdem [exDocIdem] (defaultLang exCfgEnFr))) :=
  C8_partition_idempotent exCfgEnFr exFieldsIdem [exDocIdem]
    (List.cons_ne_nil _ _) (by decide) (by decide)

/-- C10: an entry with no `location` field, or with an empty-string
location, always lands in the default partition and in no non-default
partition. -/
theorem C10_missing_location_default (languages : List String) (dl : String)
    (docs : List Json) (doc : Json) (fs : List (String × Json))
    (hdoc : doc = Json.obj fs)
    (hloc : assocFind "location" fs = none ∨ assocFind "location" fs = some (Json.str ""))
    (hmem : doc ∈ docs) :
    doc ∈ filtered_docs languages dl docs dl ∧
    ∀ locale, locale ≠ dl → doc ∉ filtered_docs languages dl docs locale := by
  have hl : doc_location doc = "" := by
    subst hdoc
    rcases hloc with h | h <;> simp [doc_location, h]
  constructor
  · refine List.mem_filter.mpr ⟨hmem, ?_⟩
    simp only [is_lang_doc, if_true, eq_self_iff_true, Bool.not_eq_true', hl]
    apply List.any_eq_false.mpr
    intro lang hlang
    simp [strStartsWith_empty]
  · intro locale hne hmem2
    have h := (List.mem_filter.mp hmem2).2
    simp only [is_lang_doc, if_neg hne, hl] at h
    rw [strStartsWith_empty] at h
    exact Bool.false_ne_true h

/-- Witness for C10 at an entry that has only a `title` field. -/
theorem C10_witness :
    exDocNoLoc ∈ filtered_docs ["en", "fr"] "en" [exDocNoLoc] "en" ∧
    ∀ locale, locale ≠ "en" → exDocNoLoc ∉ filtered_docs ["en", "fr"] "en" [exDocNoLoc] locale :=
  C10_missing_location_default ["en", "fr"] "en" [exDocNoLoc] exDocNoLoc
    [("title", Json.str "Home")] rfl (Or.inl rfl) (List.mem_singleton.mpr rfl)

end Hooks
